import Mathlib

/-!
Shallow embedding of the kleinanzeigen-scraper normalization and listing-store
core (src/scrapers/shared/normalizer.js: the normalizer helpers,
validateNormalizedData, and the DatabaseService operations).

Modelling conventions:
* JavaScript numbers are embedded as rationals (ℚ); NaN is conflated with
  null as `none` (NaN and null are both falsy and both serialize outside the
  numeric order, which is the only way the code observes them).
* JavaScript strings-or-undefined are `Option String`; the JS truthiness of
  such a value (undefined and "" are falsy) is `truthyS`.
* Millisecond timestamps are `Int`.
* The ambient nondeterminism of `Date.now()` and `Math.random()` inside
  `generateUniqueId` is made explicit: the two ambient values are passed as
  arguments `now : Int` and `rnd : String` and threaded through the
  per-source normalizers.
-/

/-- Embedding of a loosely typed JS value as it occurs in raw scraper fields
(string or number; null stands for null/undefined). -/
inductive JSVal where
  | vStr : String → JSVal
  | vNum : ℚ → JSVal
  | vNull : JSVal
deriving DecidableEq

/-- JS truthiness of a `JSVal`: "" and 0 and null are falsy. -/
def JSVal.truthy : JSVal → Bool
  | .vStr s => s ≠ ""
  | .vNum q => q ≠ 0
  | .vNull => false

/-- JS truthiness of an optional value (undefined is falsy). -/
def jsTruthyOpt : Option JSVal → Bool
  | some v => v.truthy
  | none => false

/-- JS truthiness of an optional string (undefined and "" are falsy). -/
def truthyS : Option String → Bool
  | some s => s ≠ ""
  | none => false

/-- Embedding of `a || b` on string-valued fields: the first truthy operand,
else the last operand. -/
def jsOrS (a b : Option String) : Option String :=
  if truthyS a then a else b

/-- Embedding of `a || dflt` where `dflt` is a string literal: resolves to an
actual string. -/
def jsOrSD (a : Option String) (dflt : String) : String :=
  match a with
  | some s => if s ≠ "" then s else dflt
  | none => dflt

/-- Embedding of `a || b || ""` on two optional string fields. -/
def orStr (a b : Option String) : String :=
  jsOrSD (jsOrS a b) ""

/-- Embedding of `x || null` on a string field: falsy values collapse to null. -/
def jsOrNullS (a : Option String) : Option String :=
  if truthyS a then a else none

/-- Embedding of `a || b` on loosely typed (string/number) fields. -/
def jsOrV (a b : Option JSVal) : Option JSVal :=
  if jsTruthyOpt a then a else b

/-- Numeric value of a list of decimal digit characters. -/
def natOfDigits (ds : List Char) : Nat :=
  ds.foldl (fun n c => 10 * n + (c.toNat - 48)) 0

/-- Exact rational value of a decimal number given as integer digits and
fractional digits (`d1.d2`); built with `mkRat` so that concrete values
evaluate in the kernel. -/
def decimalVal (d1 d2 : List Char) : ℚ :=
  mkRat ((natOfDigits d1 * 10 ^ d2.length + natOfDigits d2 : Nat) : Int)
    (10 ^ d2.length)

/-- Core of JS `parseFloat` after sign handling: longest prefix of the form
`\d*(\.\d*)?` with at least one digit; no such prefix gives NaN (`none`).
Exponent notation and Infinity never occur on the inputs this code feeds to
parseFloat and are not modelled. -/
def parseFloatCore (cs : List Char) : Option ℚ :=
  let d1 := cs.takeWhile Char.isDigit
  let rest := cs.dropWhile Char.isDigit
  match rest with
  | '.' :: rest2 =>
    let d2 := rest2.takeWhile Char.isDigit
    if d1.isEmpty && d2.isEmpty then none
    else some (decimalVal d1 d2)
  | _ => if d1.isEmpty then none else some (decimalVal d1 [])

/-- Embedding of JS `parseFloat`: skip leading whitespace, optional sign, then
the longest numeric prefix; NaN is `none`. -/
def parseFloatQ (s : String) : Option ℚ :=
  let cs := s.toList.dropWhile Char.isWhitespace
  match cs with
  | '-' :: rest => (parseFloatCore rest).map (fun q => -q)
  | '+' :: rest => parseFloatCore rest
  | _ => parseFloatCore cs

/-- Embedding of `parseFloat(x) || null` applied to an optional string field:
undefined parses to NaN, and NaN as well as 0 collapse to null. -/
def pfOrNull (x : Option String) : Option ℚ :=
  match x with
  | none => none
  | some s =>
    match parseFloatQ s with
    | some q => if q = 0 then none else some q
    | none => none

/-- Embedding of `price.replace(/[^\d,.]/g, "")`: keep only digits, commas and
dots. -/
def stripPriceChars (s : String) : String :=
  String.mk (s.toList.filter (fun c => c.isDigit || c == ',' || c == '.'))

/-- Embedding of `String.prototype.replace(",", ".")`: only the first comma is
replaced. -/
def replaceFirstComma : List Char → List Char
  | [] => []
  | ',' :: t => '.' :: t
  | c :: t => c :: replaceFirstComma t

/-- Embedding of `normalizePrice` from normalizer.js. -/
def normalizePrice (price : Option JSVal) : Option ℚ :=
  if jsTruthyOpt price = false then none
  else
    match price with
    | some (.vStr s) =>
      let cleanPrice := String.mk (replaceFirstComma (stripPriceChars s).toList)
      match parseFloatQ cleanPrice with
      | some q => if q = 0 then none else some q
      | none => none
    | some (.vNum q) => some q
    | _ => none

/-- Splitting of a character list at whitespace, producing the (possibly
empty) tokens between whitespace characters; list-level embedding of
`String.split` on a whitespace predicate. -/
def splitWsAux : List Char → List Char → List (List Char)
  | [], acc => [acc.reverse]
  | c :: t, acc =>
    if c.isWhitespace then acc.reverse :: splitWsAux t []
    else splitWsAux t (c :: acc)

/-- Joining of words with a single space; list-level embedding of
`Array.prototype.join(" ")`. -/
def joinSpace : List (List Char) → List Char
  | [] => []
  | [w] => w
  | w :: ws => w ++ ' ' :: joinSpace ws

/-- Embedding of `cleanString`: trim and collapse every whitespace run to one
space (equivalently, rejoin the nonempty whitespace-separated words). -/
def cleanString (s : String) : String :=
  String.mk (joinSpace ((splitWsAux s.toList []).filter (fun w => w ≠ [])))

/-- Embedding of `String.prototype.startsWith`. -/
def jsStartsWith (s pre : String) : Bool :=
  pre.toList.isPrefixOf s.toList

/-- Embedding of `normalizeImages` from normalizer.js. The argument is the
already-resolved `data.allImages || data.images || []` array; the JS filter
`img && typeof img === "string"` keeps exactly the nonempty string entries,
which the typed embedding expresses as a filterMap extracting the string
payload. -/
def normalizeImages (images : List JSVal) : List String :=
  ((images.filterMap (fun v =>
      match v with
      | .vStr s => if s ≠ "" then some s else none
      | _ => none)).map
    (fun img => if jsStartsWith img "http" then img else "https:" ++ img)).take 10

/-- Deduplication keeping the first occurrence, with an accumulator of already
seen entries; embeds the JS idiom of collecting into a Set (insertion order
preserved). -/
def dedupAux : List String → List String → List String
  | [], _ => []
  | x :: t, seen => if x ∈ seen then dedupAux t seen else x :: dedupAux t (x :: seen)

/-- Embedding of the JS Set round trip used by normalizeWgGesuchtImages. -/
def dedupKeepFirst (l : List String) : List String :=
  dedupAux l []

/-- Boolean infix (substring-of-character-list) test, auxiliary for
`String.prototype.includes`. -/
def includesAux (needle : List Char) : List Char → Bool
  | [] => needle.isEmpty
  | c :: t => needle.isPrefixOf (c :: t) || includesAux needle t

/-- Embedding of `hay.includes(needle)` on strings. -/
def strIncludes (hay needle : String) : Bool :=
  includesAux needle.toList hay.toList

/-- Unicode lowercasing of one character, restricted to ASCII letters and the
German umlauts that occur in the keyword sets (all other characters are
fixed points, as they are for the keywords involved). -/
def jsToLowerChar (c : Char) : Char :=
  if c = 'Ä' then 'ä' else if c = 'Ö' then 'ö' else if c = 'Ü' then 'ü' else c.toLower

/-- Embedding of `String.prototype.toLowerCase` over the relevant alphabet. -/
def jsToLower (s : String) : String :=
  String.mk (s.toList.map jsToLowerChar)

/-- The room keyword test of determinePropertyType (`text.includes("zimmer")
|| text.includes("wg") || text.includes("flatshare")`), over the already
lowercased haystack. -/
def roomKeywords (text : String) : Bool :=
  strIncludes text "zimmer" || strIncludes text "wg" || strIncludes text "flatshare"

/-- The house keyword test of determinePropertyType. -/
def houseKeywords (text : String) : Bool :=
  strIncludes text "haus" || strIncludes text "house"

/-- The commercial keyword test of determinePropertyType. -/
def commercialKeywords (text : String) : Bool :=
  strIncludes text "büro" || strIncludes text "office" || strIncludes text "gewerbe"

/-- Embedding of `determinePropertyType` from normalizer.js, with the three
inline keyword disjunctions factored into the named tests above. -/
def determinePropertyType (title description : String) : String :=
  let text := jsToLower (title ++ " " ++ description)
  if roomKeywords text then "room"
  else if houseKeywords text then "house"
  else if commercialKeywords text then "commercial"
  else "apartment"

/-- Embedding of `determineWgGesuchtType`: the numeric category map with
"apartment" as the `|| "apartment"` fallback for unknown or absent keys. -/
def determineWgGesuchtType (category : Option Nat) : String :=
  match category with
  | some 0 => "room"
  | some 1 => "apartment"
  | some 2 => "apartment"
  | some 3 => "house"
  | _ => "apartment"

/-- Single-position match of the regex `(\d+(?:[.,]\d+)?)\s*(?:unit₁|unit₂|…)`
at the head of `cs` (over already-lowercased text): a nonempty digit run,
optionally a decimal separator with a nonempty digit run, optional
whitespace, then one of the unit tokens; yields the captured number with the
decimal comma normalized to a dot. -/
def matchAt (units : List (List Char)) (cs : List Char) : Option ℚ :=
  let d1 := cs.takeWhile Char.isDigit
  if d1.isEmpty then none
  else
    let rest := cs.dropWhile Char.isDigit
    let step :=
      match rest with
      | c :: t =>
        if (c == '.' || c == ',') && !(t.takeWhile Char.isDigit).isEmpty then
          (t.takeWhile Char.isDigit, t.dropWhile Char.isDigit)
        else
          (([] : List Char), rest)
      | [] => (([] : List Char), rest)
    let rest3 := step.2.dropWhile Char.isWhitespace
    if units.any (fun u => u.isPrefixOf rest3) then
      some (decimalVal d1 step.1)
    else
      none

/-- Leftmost-match scan for `matchAt`, embedding `text.match(regex)` returning
the first capture. -/
def scanNumberUnit (units : List (List Char)) : List Char → Option ℚ
  | [] => none
  | c :: t =>
    match matchAt units (c :: t) with
    | some q => some q
    | none => scanNumberUnit units t

/-- Embedding of `extractSize` from normalizer.js (case-insensitivity realized
by lowercasing the text against lowercase unit tokens). -/
def extractSize (text : String) : Option ℚ :=
  if text = "" then none
  else
    scanNumberUnit
      [['m', '²'], ['q', 'm'],
       ['q', 'u', 'a', 'd', 'r', 'a', 't', 'm', 'e', 't', 'e', 'r']]
      (jsToLower text).toList

/-- Embedding of `extractRooms` from normalizer.js. -/
def extractRooms (text : String) : Option ℚ :=
  if text = "" then none
  else
    scanNumberUnit
      [['z', 'i', 'm', 'm', 'e', 'r'], ['r', 'a', 'u', 'm'],
       ['r', 'o', 'o', 'm']]
      (jsToLower text).toList

/-- Coordinate pair as stored on a canonical listing; null (and NaN, see the
module comment) is `none`. -/
structure Coords where
  lat : Option ℚ
  lng : Option ℚ
deriving DecidableEq

/-- Raw Kleinanzeigen record: the fields normalizeKleinanzeigen reads, each
possibly absent. -/
structure KaRaw where
  id : Option String := none
  url : Option String := none
  title : Option String := none
  detailedTitle : Option String := none
  description : Option String := none
  fullDescription : Option String := none
  price : Option JSVal := none
  detailedPrice : Option JSVal := none
  currency : Option String := none
  location : Option String := none
  detailedLocation : Option String := none
  coordinates : Option Coords := none
  geo_latitude : Option String := none
  geo_longitude : Option String := none
  allImages : Option (List JSVal) := none
  images : Option (List JSVal) := none
  seller : Option String := none
  additionalDetails : Option String := none
  createdAt : Option String := none
  postedDate : Option String := none
deriving DecidableEq

/-- Raw WG-gesucht record: the fields normalizeWgGesucht reads. -/
structure WgRaw where
  offer_id : Option String := none
  offer_title : Option String := none
  description : Option String := none
  total_costs : Option JSVal := none
  district_custom : Option String := none
  town_name : Option String := none
  street : Option String := none
  geo_latitude : Option String := none
  geo_longitude : Option String := none
  property_size : Option String := none
  number_of_rooms : Option String := none
  category : Option Nat := none
  duration : Option String := none
  available_from_date : Option String := none
  available_to_date : Option String := none
  flatshare_inhabitants_total : Option String := none
  flatshare_males : Option String := none
  flatshare_females : Option String := none
  searched_for_gender : Option String := none
  user_id : Option String := none
  verified_user : Option String := none
  thumb : Option String := none
  sized : Option String := none
  small : Option String := none
deriving DecidableEq

/-- The literal empty-object default used by `data.seller || ...` fallbacks,
with opaque JSON blobs embedded as strings. -/
def emptyObj : String :=
  String.mk [Char.ofNat 123, Char.ofNat 125]

/-- Source-specific passthrough payload of a kleinanzeigen listing. -/
structure KaSourceData where
  originalTitle : Option String
  originalDescription : Option String
  seller : String
  additionalDetails : String
  createdAt : Option String
  postedDate : Option String
deriving DecidableEq

/-- Flatshare composition block of the WG-gesucht passthrough payload. -/
structure Flatshare where
  total : Option String
  males : Option String
  females : Option String
  searchedGender : Option String
deriving DecidableEq

/-- Source-specific passthrough payload of a WG-gesucht listing. -/
structure WgSourceData where
  category : Option Nat
  duration : Option String
  availableFrom : Option String
  availableTo : Option String
  flatshareDetails : Flatshare
  userId : Option String
  verified : Bool
deriving DecidableEq

/-- Source-specific auxiliary data on a canonical listing. -/
inductive SourceData where
  | ka : KaSourceData → SourceData
  | wg : WgSourceData → SourceData
deriving DecidableEq

/-- Canonical (normalized) listing: the unified schema produced by the
per-source normalizers. -/
structure Listing where
  id : String
  source : String
  sourceId : String
  title : String
  description : String
  fullDescription : String
  price : Option ℚ
  currency : String
  location : String
  detailedLocation : String
  coordinates : Coords
  size : Option ℚ
  rooms : Option ℚ
  type : String
  images : List String
  url : String
  sourceData : SourceData
deriving DecidableEq

/-- Embedding of `extractCoordinates` from normalizer.js: an explicit
coordinates object wins (objects are always truthy); otherwise truthy
latitude/longitude fields are parsed as floats (without a `|| null` guard, so
a NaN parse is conflated with null as `none`); otherwise both null. -/
def extractCoordinates (data : KaRaw) : Coords :=
  match data.coordinates with
  | some c => c
  | none =>
    if truthyS data.geo_latitude && truthyS data.geo_longitude then
      { lat := parseFloatQ (data.geo_latitude.getD "")
        lng := parseFloatQ (data.geo_longitude.getD "") }
    else
      { lat := none, lng := none }

/-- Model of the external `crypto.createHash("md5").update(s).digest("hex")`
call: a concrete deterministic stand-in digest (the library digest is a pure
function of its input, which is all the verified properties depend on). -/
def md5hex (s : String) : String :=
  String.mk (Nat.toDigits 16
    (s.toList.foldl (fun (n : Nat) c => (n * 131 + c.toNat) % (2 ^ 64)) 0))

/-- Embedding of `generateUniqueId` from normalizer.js, with the ambient
`Date.now()` and `Math.random()` values passed explicitly as `now` and
`rnd`. -/
def generateUniqueId (now : Int) (rnd : String) (input : Option String) : String :=
  if truthyS input = false then
    "generated-" ++ toString now ++ "-" ++ rnd
  else
    String.mk ((md5hex (input.getD "")).toList.take 12)

/-- Embedding of `normalizeKleinanzeigen` from normalizer.js (ambient
nondeterminism of the id fallback passed as `now`/`rnd`). -/
def normalizeKleinanzeigen (now : Int) (rnd : String) (data : KaRaw) : Listing :=
  let id :=
    if truthyS data.id then data.id.getD ""
    else generateUniqueId now rnd (jsOrS data.url data.title)
  { id := id
    source := "kleinanzeigen"
    sourceId := id
    title := cleanString (orStr data.title data.detailedTitle)
    description := cleanString (jsOrSD data.description "")
    fullDescription := cleanString (orStr data.fullDescription data.description)
    price := normalizePrice (jsOrV data.price data.detailedPrice)
    currency := jsOrSD data.currency "EUR"
    location := cleanString (orStr data.location data.detailedLocation)
    detailedLocation := cleanString (orStr data.detailedLocation data.location)
    coordinates := extractCoordinates data
    size := extractSize (orStr data.fullDescription data.description)
    rooms := extractRooms (orStr data.fullDescription data.description)
    type := determinePropertyType (jsOrSD data.title "") (jsOrSD data.fullDescription "")
    images := normalizeImages (match data.allImages with
      | some l => l
      | none => data.images.getD [])
    url := jsOrSD data.url ""
    sourceData := .ka
      { originalTitle := jsOrNullS data.title
        originalDescription := jsOrNullS data.description
        seller := jsOrSD data.seller emptyObj
        additionalDetails := jsOrSD data.additionalDetails emptyObj
        createdAt := jsOrNullS data.createdAt
        postedDate := jsOrNullS data.postedDate } }

/-- Embedding of `normalizeWgGesuchtImages` from normalizer.js: the up to
three truthy thumbnail fields, site-prefixed, collected through a Set. -/
def normalizeWgGesuchtImages (data : WgRaw) : List String :=
  dedupKeepFirst
    ((if truthyS data.thumb then ["https://www.wg-gesucht.de/" ++ data.thumb.getD ""] else []) ++
     (if truthyS data.sized then ["https://www.wg-gesucht.de/" ++ data.sized.getD ""] else []) ++
     (if truthyS data.small then ["https://www.wg-gesucht.de/" ++ data.small.getD ""] else []))

/-- Embedding of `x || null` on an optional numeric field (0 collapses to
null). -/
def jsOrNullN (x : Option Nat) : Option Nat :=
  match x with
  | some n => if n = 0 then none else some n
  | none => none

/-- Embedding of `normalizeWgGesucht` from normalizer.js. -/
def normalizeWgGesucht (now : Int) (rnd : String) (data : WgRaw) : Listing :=
  let id :=
    if truthyS data.offer_id then data.offer_id.getD ""
    else generateUniqueId now rnd data.offer_title
  { id := "wg-" ++ id
    source := "wg-gesucht"
    sourceId := id
    title := cleanString (jsOrSD data.offer_title "")
    description := cleanString (jsOrSD data.description "")
    fullDescription := cleanString (jsOrSD data.description "")
    price := normalizePrice data.total_costs
    currency := "EUR"
    location := cleanString (orStr data.district_custom data.town_name)
    detailedLocation := cleanString (jsOrSD data.street "" ++ " " ++ jsOrSD data.district_custom "")
    coordinates :=
      { lat := pfOrNull data.geo_latitude
        lng := pfOrNull data.geo_longitude }
    size := pfOrNull data.property_size
    rooms := pfOrNull data.number_of_rooms
    type := determineWgGesuchtType data.category
    images := normalizeWgGesuchtImages data
    url := "https://www.wg-gesucht.de/" ++
      (if truthyS data.offer_id then data.offer_id.getD "" else id)
    sourceData := .wg
      { category := jsOrNullN data.category
        duration := jsOrNullS data.duration
        availableFrom := jsOrNullS data.available_from_date
        availableTo := jsOrNullS data.available_to_date
        flatshareDetails :=
          { total := jsOrNullS data.flatshare_inhabitants_total
            males := jsOrNullS data.flatshare_males
            females := jsOrNullS data.flatshare_females
            searchedGender := jsOrNullS data.searched_for_gender }
        userId := jsOrNullS data.user_id
        verified := data.verified_user == some "1" } }

/-- Result shape of `validateNormalizedData`. -/
structure ValidationResult where
  isValid : Bool
  errors : List String
deriving DecidableEq

/-- Embedding of `validateNormalizedData` from normalizer.js, applied to a
canonical listing (the only shape the repository feeds it). The JS truthiness
guards become: a missing string is the empty string, `data.coordinates` is
always an object hence truthy, a coordinate is checked only when non-null and
nonzero, and `typeof data.price === "number"` always holds for a non-null
embedded price. -/
def validateNormalizedData (data : Listing) : ValidationResult :=
  let errors : List String :=
    (if data.id = "" then ["Missing required field: id"] else []) ++
    (if data.source = "" then ["Missing required field: source"] else []) ++
    (if data.title = "" then ["Missing required field: title"] else []) ++
    (match data.price with
     | some p => if p < 0 then ["Invalid price value"] else []
     | none => []) ++
    (match data.coordinates.lat with
     | some q => if q ≠ 0 ∧ (q < -90 ∨ 90 < q) then ["Invalid latitude"] else []
     | none => []) ++
    (match data.coordinates.lng with
     | some q => if q ≠ 0 ∧ (q < -180 ∨ 180 < q) then ["Invalid longitude"] else []
     | none => [])
  { isValid := errors.isEmpty, errors := errors }

/-- Stored document of the rental_listings collection: the canonical listing
fields plus the lifecycle fields owned by the store. The document key always
coincides with `data.id` (both branches of saveOrUpdateListing write the
listing whose id they used as the key). -/
structure StoredDoc where
  data : Listing
  firstSeen : Int
  lastSeen : Int
  scrapedAt : Int
  isActive : Bool
deriving DecidableEq

/-- The rental_listings collection, as the list of its documents. -/
abbrev Store := List StoredDoc

/-- Embedding of `DatabaseService.saveOrUpdateListing`, with the Firestore
server timestamp passed as `now`. The update branch spreads the listing over
the existing document: every listing field (source included) is overwritten,
`lastSeen` and `scrapedAt` are set to now, and `firstSeen` and `isActive`
are left as they were. -/
def saveOrUpdateListing (now : Int) (l : Listing) (store : Store) :
    (String × String) × Store :=
  match store.find? (fun d => d.data.id == l.id) with
  | some _ =>
    (("updated", l.id),
     store.map (fun d =>
       if d.data.id == l.id then
         { data := l, firstSeen := d.firstSeen, lastSeen := now,
           scrapedAt := now, isActive := d.isActive }
       else d))
  | none =>
    (("created", l.id),
     store ++ [{ data := l, firstSeen := now, lastSeen := now,
                 scrapedAt := now, isActive := true }])

/-- Filter object accepted by `DatabaseService.getListings`. The `offset`
field is part of the documented query surface; whether the implementation
reads it is exactly what claim C9 is about. -/
structure Filters where
  source : Option String := none
  isActive : Option Bool := none
  minPrice : Option ℚ := none
  maxPrice : Option ℚ := none
  limit : Option Nat := none
  offset : Option Nat := none

/-- Conjunction of the where-clauses getListings builds: a truthy `source`
equality filter, an `isActive` equality filter when the field is not
undefined, and truthy min/max price range filters (a range filter only
matches documents whose price is a number). -/
def matchesFilters (f : Filters) (d : StoredDoc) : Bool :=
  (match f.source with
   | some s => if s ≠ "" then d.data.source == s else true
   | none => true) &&
  (match f.isActive with
   | some b => d.isActive == b
   | none => true) &&
  (match f.minPrice with
   | some m => if m ≠ 0 then (match d.data.price with
       | some p => decide (m ≤ p)
       | none => false) else true
   | none => true) &&
  (match f.maxPrice with
   | some m => if m ≠ 0 then (match d.data.price with
       | some p => decide (p ≤ m)
       | none => false) else true
   | none => true)

/-- Insertion into a list ordered by `lastSeen` descending; equal keys keep
their existing relative order (stable). -/
def insertByLastSeenDesc (d : StoredDoc) : Store → Store
  | [] => [d]
  | h :: t =>
    if h.lastSeen < d.lastSeen then d :: h :: t
    else h :: insertByLastSeenDesc d t

/-- Stable sort by `lastSeen` descending, embedding the
`orderBy("lastSeen", "desc")` clause. -/
def sortByLastSeenDesc (l : Store) : Store :=
  l.foldl (fun acc d => insertByLastSeenDesc d acc) []

/-- Embedding of `DatabaseService.getListings`: filter, order by `lastSeen`
descending, and apply a truthy `limit`. No other part of the filter object is
consulted. -/
def getListings (f : Filters) (store : Store) : Store :=
  let ordered := sortByLastSeenDesc (store.filter (matchesFilters f))
  match f.limit with
  | some n => if n ≠ 0 then ordered.take n else ordered
  | none => ordered

/-- The where-clause of `markListingsInactive`: same source, `lastSeen`
strictly before the cutoff, currently active. -/
def sweepMatch (now : Int) (source : String) (olderThan : Int) (d : StoredDoc) : Bool :=
  d.data.source == source && decide (d.lastSeen < now - olderThan) && d.isActive

/-- Embedding of `DatabaseService.markListingsInactive`: one batch flips
`isActive` to false on every matching document and the matched count is
returned; nothing is deleted. -/
def markListingsInactive (now : Int) (source : String) (olderThan : Int)
    (store : Store) : Nat × Store :=
  ((store.filter (sweepMatch now source olderThan)).length,
   store.map (fun d =>
     if sweepMatch now source olderThan d then { d with isActive := false } else d))

/-- Concrete canonical listing used by the witness and counterexample
instantiations, parametrized by id and source. -/
def exListing (i src : String) : Listing :=
  { id := i
    source := src
    sourceId := i
    title := "Nachmieter gesucht"
    description := ""
    fullDescription := ""
    price := none
    currency := "EUR"
    location := "Berlin"
    detailedLocation := ""
    coordinates := { lat := none, lng := none }
    size := none
    rooms := none
    type := "apartment"
    images := []
    url := ""
    sourceData := .ka
      { originalTitle := none, originalDescription := none,
        seller := emptyObj, additionalDetails := emptyObj,
        createdAt := none, postedDate := none } }

/-- The exListing fixture with the violations exercised by the validation
claim: empty title, negative price, out-of-range latitude. -/
def badListing : Listing :=
  { exListing "x" "kleinanzeigen" with
    title := ""
    price := some (mkRat (-5) 1)
    coordinates := { lat := some (mkRat 200 1), lng := none } }

/-- Useful fixture: an active kleinanzeigen document last seen one day before
the witness sweep time. -/
def dRecent : StoredDoc :=
  { data := exListing "x" "kleinanzeigen", firstSeen := 0, lastSeen := 777600000,
    scrapedAt := 0, isActive := true }

/-- Useful fixture: an active kleinanzeigen document last seen ten days
before the witness sweep time. -/
def dOld : StoredDoc :=
  { data := exListing "y" "kleinanzeigen", firstSeen := 0, lastSeen := 0,
    scrapedAt := 0, isActive := true }

/-- C3 (code bug): the documented price-parsing round trip fails on the code.
normalizePrice strips the currency glyph and spaces, replaces only the first
comma by a dot, and parseFloat then stops at the surviving thousands-separator
dot: "1.234,56 €" cleans to "1.234.56" and parses to 1.234 (617/500), not the
documented 1234.56. The null/empty cases do behave as documented. -/
theorem normalizePrice_thousand_separator_eval :
    normalizePrice (some (.vStr "1.234,56 €")) = some (mkRat 617 500) ∧
    (mkRat 617 500 : ℚ) ≠ (123456 : ℚ) / 100 ∧
    normalizePrice (some (.vStr "")) = none ∧
    normalizePrice none = none := by
  refine ⟨by decide, ?_, by decide, by decide⟩
  rw [Rat.mkRat_eq_div]
  norm_num

/-- C10: normalizePrice collapses a price of exactly zero to null, both for
the number 0 (the `!price` guard) and for a string parsing to 0 (the
`parseFloat(...) || null` fallback), so a zero price is indistinguishable
from an absent one; every nonzero numeric price is passed through. -/
theorem normalizePrice_zero_is_null :
    normalizePrice (some (.vNum 0)) = none ∧
    normalizePrice (some (.vStr "0 €")) = none ∧
    normalizePrice (some (.vNum 0)) = normalizePrice none ∧
    (∀ q : ℚ, q ≠ 0 → normalizePrice (some (.vNum q)) = some q) := by
  refine ⟨by decide, by decide, by decide, ?_⟩
  intro q hq
  simp [normalizePrice, jsTruthyOpt, JSVal.truthy, hq]

/-- Witness for normalizePrice_zero_is_null at the nonzero price 650. -/
theorem normalizePrice_zero_is_null_witness :
    normalizePrice (some (.vNum (mkRat 650 1))) = some (mkRat 650 1) :=
  normalizePrice_zero_is_null.2.2.2 (mkRat 650 1) (by decide)

/-- C5: validateNormalizedData accumulates violations (a missing title, a
negative price and an out-of-range latitude are each reported whenever
present, independently of each other), never throws (it is a total
function), and accepts exactly the well-formed listings: nonempty
id/source/title, price null-or-nonnegative, coordinates in range when
non-null give `isValid = true` with an empty error list. -/
theorem validateNormalizedData_spec (data : Listing) :
    (data.title = "" →
      "Missing required field: title" ∈ (validateNormalizedData data).errors ∧
      (validateNormalizedData data).isValid = false) ∧
    (∀ p : ℚ, data.price = some p → p < 0 →
      "Invalid price value" ∈ (validateNormalizedData data).errors ∧
      (validateNormalizedData data).isValid = false) ∧
    (∀ q : ℚ, data.coordinates.lat = some q → 90 < q →
      "Invalid latitude" ∈ (validateNormalizedData data).errors ∧
      (validateNormalizedData data).isValid = false) ∧
    (data.id ≠ "" → data.source ≠ "" → data.title ≠ "" →
      (∀ p : ℚ, data.price = some p → 0 ≤ p) →
      (∀ q : ℚ, data.coordinates.lat = some q → -90 ≤ q ∧ q ≤ 90) →
      (∀ q : ℚ, data.coordinates.lng = some q → -180 ≤ q ∧ q ≤ 180) →
      validateNormalizedData data = { isValid := true, errors := [] }) := by
  refine ⟨?_, ?_, ?_, ?_⟩
  · intro h
    constructor
    · simp [validateNormalizedData, h]
    · simp [validateNormalizedData, h, List.isEmpty_iff, List.append_eq_nil]
  · intro p hp hneg
    constructor
    · simp [validateNormalizedData, hp, hneg]
    · simp [validateNormalizedData, hp, hneg, List.isEmpty_iff, List.append_eq_nil]
  · intro q hq hgt
    have hcond : q ≠ 0 ∧ (q < -90 ∨ 90 < q) := ⟨by positivity, Or.inr hgt⟩
    constructor
    · simp [validateNormalizedData, hq, hcond]
    · simp [validateNormalizedData, hq, hcond, List.isEmpty_iff, List.append_eq_nil]
  · intro h1 h2 h3 hp hlat hlng
    have e1 : (if data.id = "" then ["Missing required field: id"] else []) = [] := by
      simp [h1]
    have e2 : (if data.source = "" then ["Missing required field: source"] else []) = [] := by
      simp [h2]
    have e3 : (if data.title = "" then ["Missing required field: title"] else []) = [] := by
      simp [h3]
    have e4 : (match data.price with
        | some p => if p < 0 then ["Invalid price value"] else []
        | none => []) = [] := by
      cases hpe : data.price with
      | none => rfl
      | some p => simp [not_lt.mpr (hp p hpe)]
    have e5 : (match data.coordinates.lat with
        | some q => if q ≠ 0 ∧ (q < -90 ∨ 90 < q) then ["Invalid latitude"] else []
        | none => []) = [] := by
      cases hqe : data.coordinates.lat with
      | none => rfl
      | some q =>
        have hb := hlat q hqe
        have : ¬(q ≠ 0 ∧ (q < -90 ∨ 90 < q)) := by
          rintro ⟨-, hlt | hlt⟩ <;> linarith [hb.1, hb.2]
        simp [this]
    have e6 : (match data.coordinates.lng with
        | some q => if q ≠ 0 ∧ (q < -180 ∨ 180 < q) then ["Invalid longitude"] else []
        | none => []) = [] := by
      cases hqe : data.coordinates.lng with
      | none => rfl
      | some q =>
        have hb := hlng q hqe
        have : ¬(q ≠ 0 ∧ (q < -180 ∨ 180 < q)) := by
          rintro ⟨-, hlt | hlt⟩ <;> linarith [hb.1, hb.2]
        simp [this]
    simp only [validateNormalizedData, e1, e2, e3, e4, e5, e6]
    rfl

/-- Witness for validateNormalizedData_spec: the three documented violations
on badListing, and acceptance of the well-formed exListing. -/
theorem validateNormalizedData_spec_witness :
    "Missing required field: title" ∈ (validateNormalizedData badListing).errors ∧
    "Invalid price value" ∈ (validateNormalizedData badListing).errors ∧
    "Invalid latitude" ∈ (validateNormalizedData badListing).errors ∧
    (validateNormalizedData badListing).isValid = false ∧
    validateNormalizedData (exListing "x" "kleinanzeigen") =
      { isValid := true, errors := [] } :=
  ⟨((validateNormalizedData_spec badListing).1 rfl).1,
   ((validateNormalizedData_spec badListing).2.1 (mkRat (-5) 1) rfl (by decide)).1,
   ((validateNormalizedData_spec badListing).2.2.1 (mkRat 200 1) rfl (by decide)).1,
   ((validateNormalizedData_spec badListing).1 rfl).2,
   (validateNormalizedData_spec (exListing "x" "kleinanzeigen")).2.2.2
     (by decide) (by decide) (by decide)
     (fun p hp => by simp [exListing] at hp)
     (fun q hq => by simp [exListing] at hq)
     (fun q hq => by simp [exListing] at hq)⟩

/-- Helper: dedupAux yields a duplicate-free list avoiding the seen set. -/
theorem dedupAux_nodup_avoid (l : List String) :
    ∀ seen : List String,
      (dedupAux l seen).Nodup ∧ ∀ x ∈ dedupAux l seen, x ∉ seen := by
  induction l with
  | nil => intro seen; simp [dedupAux]
  | cons a t ih =>
    intro seen
    by_cases ha : a ∈ seen
    · simpa [dedupAux, ha] using ih seen
    · have iht := ih (a :: seen)
      have heq : dedupAux (a :: t) seen = a :: dedupAux t (a :: seen) := by
        simp [dedupAux, ha]
      rw [heq]
      constructor
      · rw [List.nodup_cons]
        exact ⟨fun hmem => (iht.2 a hmem) (List.mem_cons_self a seen), iht.1⟩
      · intro x hx
        rcases List.mem_cons.mp hx with rfl | hx2
        · exact ha
        · exact fun hxs => (iht.2 x hx2) (List.mem_cons_of_mem a hxs)

/-- Helper: dedupAux never lengthens a list. -/
theorem dedupAux_length_le (l : List String) :
    ∀ seen : List String, (dedupAux l seen).length ≤ l.length := by
  induction l with
  | nil => intro seen; simp [dedupAux]
  | cons a t ih =>
    intro seen
    by_cases ha : a ∈ seen
    · simp only [dedupAux, ha, if_pos]
      exact Nat.le_succ_of_le (ih seen)
    · simp only [dedupAux, ha, if_neg, List.length_cons]
      exact Nat.succ_le_succ (ih (a :: seen))

/-- C7 counterexample: the kleinanzeigen image path does not deduplicate. A
raw record repeating the same protocol-relative URL twice normalizes to an
images array holding the prefixed URL twice, refuting the claim that the
images field of every normalized listing is deduplicated. -/
theorem normalizeImages_not_dedup_cex :
    (normalizeKleinanzeigen 0 "r"
        { allImages := some [.vStr "//a.jpg", .vStr "//a.jpg"] }).images =
      ["https://a.jpg", "https://a.jpg"] ∧
    ¬ (normalizeKleinanzeigen 0 "r"
        { allImages := some [.vStr "//a.jpg", .vStr "//a.jpg"] }).images.Nodup :=
  ⟨by decide, by decide⟩

/-- C7 amended: the images sequence is capped at 10 entries, each entry comes
from a nonempty string entry of the raw array and non-http entries are
`https:`-prefixed; deduplication happens only in the WG-gesucht thumbnail
collector (whose output is duplicate-free and, having at most three entries,
within the cap) — the kleinanzeigen path keeps duplicates. -/
theorem images_normalization_spec (imgs : List JSVal) (d : WgRaw) :
    (normalizeImages imgs).length ≤ 10 ∧
    (∀ s ∈ normalizeImages imgs, ∃ t, JSVal.vStr t ∈ imgs ∧ t ≠ "" ∧
      s = (if jsStartsWith t "http" then t else "https:" ++ t)) ∧
    (normalizeWgGesuchtImages d).Nodup ∧
    (normalizeWgGesuchtImages d).length ≤ 10 := by
  refine ⟨?_, ?_, ?_, ?_⟩
  · exact List.length_take_le 10 _
  · intro s hs
    have hs2 := List.take_subset 10 _ hs
    obtain ⟨x, hx, rfl⟩ := List.mem_map.mp hs2
    obtain ⟨v, hv, hfx⟩ := List.mem_filterMap.mp hx
    cases v with
    | vStr t =>
      by_cases ht : t = ""
      · simp [ht] at hfx
      · simp only [ht] at hfx
        simp at hfx
        obtain ⟨-, rfl⟩ := hfx
        exact ⟨t, hv, ht, rfl⟩
    | vNum q => exact Option.noConfusion hfx
    | vNull => exact Option.noConfusion hfx
  · exact (dedupAux_nodup_avoid _ []).1
  · refine le_trans (dedupAux_length_le _ []) ?_
    have hlen : ∀ b : Bool, ∀ x : String,
        (if b = true then [x] else []).length ≤ 1 := by
      intro b x; cases b <;> simp
    simp only [List.length_append]
    have h1 := hlen (truthyS d.thumb) ("https://www.wg-gesucht.de/" ++ d.thumb.getD "")
    have h2 := hlen (truthyS d.sized) ("https://www.wg-gesucht.de/" ++ d.sized.getD "")
    have h3 := hlen (truthyS d.small) ("https://www.wg-gesucht.de/" ++ d.small.getD "")
    omega

/-- Witness for images_normalization_spec at a concrete raw array and raw
WG-gesucht record with a repeated thumbnail. -/
theorem images_normalization_spec_witness :
    (normalizeImages [.vStr "//a.jpg", .vNum 3, .vStr "http://b.de/x.png"]).length ≤ 10 ∧
    (normalizeWgGesuchtImages { thumb := some "img/t.jpg", sized := some "img/t.jpg" }).Nodup ∧
    (normalizeWgGesuchtImages { thumb := some "img/t.jpg", sized := some "img/t.jpg" }) =
      ["https://www.wg-gesucht.de/img/t.jpg"] := by
  have h := images_normalization_spec [.vStr "//a.jpg", .vNum 3, .vStr "http://b.de/x.png"]
    { thumb := some "img/t.jpg", sized := some "img/t.jpg" }
  exact ⟨h.1, h.2.2.1, by decide⟩

/-- Helper: the truthiness of a JS `||` on string fields is the disjunction
of the operand truthinesses. -/
theorem truthyS_jsOrS (a b : Option String) :
    truthyS (jsOrS a b) = (truthyS a || truthyS b) := by
  cases h : truthyS a <;> simp [jsOrS, h]

/-- Helper: generateUniqueId does not depend on the ambient clock and
randomness when its input is truthy. -/
theorem generateUniqueId_const (n₁ n₂ : Int) (r₁ r₂ : String) (input : Option String)
    (h : truthyS input = true) :
    generateUniqueId n₁ r₁ input = generateUniqueId n₂ r₂ input := by
  simp [generateUniqueId, h]

/-- C6 counterexample: a kleinanzeigen raw record with no id, no url and no
title hits the `generated-${Date.now()}-${random}` fallback, so normalizing
the same raw record at two different ambient clock values yields different
canonical listings (different ids), refuting determinism for every raw
record. -/
theorem normalizeKleinanzeigen_nondet_cex :
    normalizeKleinanzeigen 0 "a" {} ≠ normalizeKleinanzeigen 1 "a" {} ∧
    (normalizeKleinanzeigen 0 "a" {}).id = "generated-0-a" ∧
    (normalizeKleinanzeigen 1 "a" {}).id = "generated-1-a" :=
  ⟨by decide, by decide, by decide⟩

/-- C6 amended: normalization is a deterministic function of the raw record
and the source whenever the record carries an id-deriving input — for
kleinanzeigen a truthy `id`, `url` or `title`, for WG-gesucht a truthy
`offer_id` or `offer_title`; only the timestamp+random fallback for records
with none of these breaks determinism. -/
theorem normalize_deterministic_of_identity (n₁ n₂ : Int) (r₁ r₂ : String) :
    (∀ d : KaRaw, (truthyS d.id || truthyS d.url || truthyS d.title) = true →
      normalizeKleinanzeigen n₁ r₁ d = normalizeKleinanzeigen n₂ r₂ d) ∧
    (∀ d : WgRaw, (truthyS d.offer_id || truthyS d.offer_title) = true →
      normalizeWgGesucht n₁ r₁ d = normalizeWgGesucht n₂ r₂ d) := by
  constructor
  · intro d h
    by_cases hid : truthyS d.id = true
    · simp [normalizeKleinanzeigen, hid]
    · have hor : truthyS (jsOrS d.url d.title) = true := by
        rw [truthyS_jsOrS]
        simp [hid] at h
        simpa using h
      have hgen := generateUniqueId_const n₁ n₂ r₁ r₂ (jsOrS d.url d.title) hor
      simp [normalizeKleinanzeigen, hid, hgen]
  · intro d h
    by_cases hid : truthyS d.offer_id = true
    · simp [normalizeWgGesucht, hid]
    · have hot : truthyS d.offer_title = true := by
        simp [hid] at h
        exact h
      have hgen := generateUniqueId_const n₁ n₂ r₁ r₂ d.offer_title hot
      simp [normalizeWgGesucht, hid, hgen]

/-- Witness for normalize_deterministic_of_identity: records with a native
id normalize identically under different ambient clock/randomness values. -/
theorem normalize_deterministic_of_identity_witness :
    normalizeKleinanzeigen 3 "aa" { id := some "123" } =
      normalizeKleinanzeigen 99 "zz" { id := some "123" } ∧
    normalizeWgGesucht 3 "aa" { offer_id := some "777" } =
      normalizeWgGesucht 99 "zz" { offer_id := some "777" } :=
  ⟨(normalize_deterministic_of_identity 3 99 "aa" "zz").1 { id := some "123" } (by decide),
   (normalize_deterministic_of_identity 3 99 "aa" "zz").2 { offer_id := some "777" } (by decide)⟩

/-- Helper: a map that fixes every element of a list is the identity on it. -/
theorem map_eq_self_of {α : Type} (l : List α) (g : α → α) (h : ∀ a ∈ l, g a = a) :
    l.map g = l := by
  induction l with
  | nil => rfl
  | cons a t ih =>
    simp only [List.map_cons]
    rw [h a (List.mem_cons_self a t),
      ih (fun b hb => h b (List.mem_cons_of_mem a hb))]

/-- Helper: find? over a list ending in `x` where everything before fails the
predicate. -/
theorem find?_append_singleton {α : Type} (p : α → Bool) (l : List α) (x : α)
    (h : ∀ a ∈ l, p a = false) :
    (l ++ [x]).find? p = if p x then some x else none := by
  induction l with
  | nil =>
    simp only [List.nil_append, List.find?]
    cases hpx : p x <;> simp [hpx]
  | cons a t ih =>
    have ha : p a = false := h a (List.mem_cons_self a t)
    simp only [List.cons_append, List.find?, ha]
    exact ih (fun b hb => h b (List.mem_cons_of_mem a hb))

/-- C1: saveOrUpdateListing looks the listing up by id. If no stored document
has that id it appends the full record with firstSeen = lastSeen = scrapedAt
= now and isActive = true and reports "created"; if one exists it reports
"updated"; and upserting the same id twice starting from a store without it
leaves exactly one document with that id. -/
theorem saveOrUpdateListing_upsert_spec (now : Int) (l : Listing) (store : Store) :
    ((∀ d ∈ store, d.data.id ≠ l.id) →
      saveOrUpdateListing now l store =
        (("created", l.id),
         store ++ [{ data := l, firstSeen := now, lastSeen := now,
                     scrapedAt := now, isActive := true }])) ∧
    ((∃ d ∈ store, d.data.id = l.id) →
      (saveOrUpdateListing now l store).1 = ("updated", l.id)) ∧
    ((∀ d ∈ store, d.data.id ≠ l.id) → ∀ now2 : Int, ∀ l2 : Listing, l2.id = l.id →
      (saveOrUpdateListing now2 l2 (saveOrUpdateListing now l store).2).1 =
        ("updated", l2.id) ∧
      ((saveOrUpdateListing now2 l2 (saveOrUpdateListing now l store).2).2.filter
        (fun d => d.data.id == l.id)).length = 1) := by
  refine ⟨?_, ?_, ?_⟩
  · intro h
    have hf : store.find? (fun d => d.data.id == l.id) = none := by
      rw [List.find?_eq_none]
      intro d hd
      simp only [beq_iff_eq]
      exact h d hd
    simp [saveOrUpdateListing, hf]
  · rintro ⟨d, hd, hk⟩
    have hsome : (store.find? (fun e => e.data.id == l.id)).isSome := by
      rw [List.find?_isSome]
      exact ⟨d, hd, by simp [hk]⟩
    obtain ⟨x, hx⟩ := Option.isSome_iff_exists.mp hsome
    simp [saveOrUpdateListing, hx]
  · intro h now2 l2 hl2
    have hf : store.find? (fun d => d.data.id == l.id) = none := by
      rw [List.find?_eq_none]
      intro d hd
      simp only [beq_iff_eq]
      exact h d hd
    have hst : (saveOrUpdateListing now l store).2 =
        store ++ [{ data := l, firstSeen := now, lastSeen := now,
                    scrapedAt := now, isActive := true }] := by
      simp [saveOrUpdateListing, hf]
    rw [hst]
    have hp_store : ∀ a ∈ store, (a.data.id == l2.id) = false := by
      intro a ha
      rw [beq_eq_false_iff_ne, hl2]
      exact fun hcontra => h a ha hcontra
    have hfind := find?_append_singleton (fun d => d.data.id == l2.id) store
      { data := l, firstSeen := now, lastSeen := now,
        scrapedAt := now, isActive := true } hp_store
    have hceq : ((fun d : StoredDoc => d.data.id == l2.id)
        { data := l, firstSeen := now, lastSeen := now,
          scrapedAt := now, isActive := true }) = true := by
      simp [hl2]
    rw [hceq, if_pos rfl] at hfind
    constructor
    · simp [saveOrUpdateListing, hfind]
    · simp only [saveOrUpdateListing, hfind]
      rw [List.map_append]
      rw [map_eq_self_of store _ (fun a ha => by simp [hp_store a ha])]
      rw [List.filter_append]
      rw [List.filter_eq_nil_iff.mpr (fun a ha => by simp [beq_iff_eq]; exact h a ha)]
      simp [hceq, hl2]

/-- Witness for saveOrUpdateListing_upsert_spec: create into the empty store,
then upsert the same id again. -/
theorem saveOrUpdateListing_upsert_spec_witness :
    saveOrUpdateListing 5 (exListing "x" "kleinanzeigen") [] =
      (("created", "x"),
       [{ data := exListing "x" "kleinanzeigen", firstSeen := 5, lastSeen := 5,
          scrapedAt := 5, isActive := true }]) ∧
    (saveOrUpdateListing 6 (exListing "x" "kleinanzeigen")
      (saveOrUpdateListing 5 (exListing "x" "kleinanzeigen") []).2).1 =
      ("updated", "x") ∧
    ((saveOrUpdateListing 6 (exListing "x" "kleinanzeigen")
      (saveOrUpdateListing 5 (exListing "x" "kleinanzeigen") []).2).2.filter
      (fun d => d.data.id == "x")).length = 1 := by
  have h := saveOrUpdateListing_upsert_spec 5 (exListing "x" "kleinanzeigen") []
  have h3 := h.2.2 (by simp) 6 (exListing "x" "kleinanzeigen") rfl
  exact ⟨h.1 (by simp), h3.1, h3.2⟩

/-- C4 counterexample: the update branch spreads the whole listing over the
stored document, so `source` is overwritten with the newest extraction too.
Upserting a listing with the same id but source "wg-gesucht" onto a stored
"kleinanzeigen" document leaves the stored source as "wg-gesucht", refuting
the claim that `source` stays unchanged on update. -/
theorem saveOrUpdateListing_source_overwritten_cex :
    ((saveOrUpdateListing 7 (exListing "x" "wg-gesucht")
        [{ data := exListing "x" "kleinanzeigen", firstSeen := 0, lastSeen := 0,
           scrapedAt := 0, isActive := true }]).2.map (fun d => d.data.source)) =
      ["wg-gesucht"] ∧
    ("wg-gesucht" : String) ≠ "kleinanzeigen" :=
  ⟨by decide, by decide⟩

/-- C4 amended: on an upsert hitting an existing id, every listing field
(including source) is overwritten with the newest extraction, the lookup key
(id) is unchanged, `firstSeen` and `isActive` are preserved (so a deactivated
listing that reappears stays inactive), `lastSeen` and `scrapedAt` are set to
now, no other document changes, nothing is deleted, and whenever the clock
advanced the updated document's lastSeen strictly increased. -/
theorem saveOrUpdateListing_update_frame (now : Int) (l : Listing) (store : Store)
    (d : StoredDoc) (hd : d ∈ store) (hk : d.data.id = l.id) :
    (saveOrUpdateListing now l store).1 = ("updated", l.id) ∧
    { data := l, firstSeen := d.firstSeen, lastSeen := now, scrapedAt := now,
      isActive := d.isActive } ∈ (saveOrUpdateListing now l store).2 ∧
    (∀ e ∈ store, e.data.id ≠ l.id → e ∈ (saveOrUpdateListing now l store).2) ∧
    (saveOrUpdateListing now l store).2.length = store.length ∧
    (d.lastSeen < now →
      ∀ e ∈ (saveOrUpdateListing now l store).2, e.data.id = l.id →
        d.lastSeen < e.lastSeen) := by
  have hsome : (store.find? (fun e => e.data.id == l.id)).isSome := by
    rw [List.find?_isSome]
    exact ⟨d, hd, by simp [hk]⟩
  obtain ⟨x, hx⟩ := Option.isSome_iff_exists.mp hsome
  refine ⟨by simp [saveOrUpdateListing, hx], ?_, ?_, ?_, ?_⟩
  · simp only [saveOrUpdateListing, hx]
    have heq : (⟨l, d.firstSeen, now, now, d.isActive⟩ : StoredDoc) =
        (fun e : StoredDoc =>
          if e.data.id == l.id then
            { data := l, firstSeen := e.firstSeen, lastSeen := now,
              scrapedAt := now, isActive := e.isActive }
          else e) d := by
      simp [hk]
    have hm := List.mem_map_of_mem (fun e : StoredDoc =>
        if e.data.id == l.id then
          { data := l, firstSeen := e.firstSeen, lastSeen := now,
            scrapedAt := now, isActive := e.isActive }
        else e) hd
    rw [← heq] at hm
    exact hm
  · intro e he hne
    simp only [saveOrUpdateListing, hx]
    have heq : e = (fun a : StoredDoc =>
        if a.data.id == l.id then
          { data := l, firstSeen := a.firstSeen, lastSeen := now,
            scrapedAt := now, isActive := a.isActive }
        else a) e := by
      simp [hne]
    rw [heq]
    exact List.mem_map_of_mem _ he
  · simp [saveOrUpdateListing, hx]
  · intro hlt e he hei
    simp only [saveOrUpdateListing, hx] at he
    obtain ⟨a, ha, rfl⟩ := List.mem_map.mp he
    by_cases hai : (a.data.id == l.id) = true
    · simp only [hai, if_pos] at hei ⊢
      simpa using hlt
    · simp [hai] at hei
      exact absurd hei (by simpa using hai)

/-- Witness for saveOrUpdateListing_update_frame: updating a deactivated
stored document with a new extraction of the same id. -/
theorem saveOrUpdateListing_update_frame_witness :
    (saveOrUpdateListing 7 (exListing "x" "wg-gesucht")
      [{ data := exListing "x" "kleinanzeigen", firstSeen := 2, lastSeen := 3,
         scrapedAt := 3, isActive := false }]).1 = ("updated", "x") ∧
    { data := exListing "x" "wg-gesucht", firstSeen := 2, lastSeen := 7,
      scrapedAt := 7, isActive := false } ∈
      (saveOrUpdateListing 7 (exListing "x" "wg-gesucht")
        [{ data := exListing "x" "kleinanzeigen", firstSeen := 2, lastSeen := 3,
           scrapedAt := 3, isActive := false }]).2 := by
  have h := saveOrUpdateListing_update_frame 7 (exListing "x" "wg-gesucht")
    [{ data := exListing "x" "kleinanzeigen", firstSeen := 2, lastSeen := 3,
       scrapedAt := 3, isActive := false }]
    { data := exListing "x" "kleinanzeigen", firstSeen := 2, lastSeen := 3,
      scrapedAt := 3, isActive := false }
    (by simp) rfl
  exact ⟨h.1, h.2.1⟩

/-- Helper: a list is pointwise related to its image under a map. -/
theorem forall2_map_self {α : Type} (R : α → α → Prop) (g : α → α) (l : List α)
    (h : ∀ a ∈ l, R a (g a)) : List.Forall₂ R l (l.map g) := by
  induction l with
  | nil => simp
  | cons a t ih =>
    simp only [List.map_cons, List.forall₂_cons]
    exact ⟨h a (List.mem_cons_self a t),
      ih (fun b hb => h b (List.mem_cons_of_mem a hb))⟩

/-- C2: markListingsInactive matches exactly the currently active documents
of the given source whose lastSeen lies strictly before now minus the window,
returns the number of matched documents, deletes nothing (the store keeps its
length), and pointwise flips isActive to false on matched documents while
leaving every unmatched document completely unchanged. -/
theorem markListingsInactive_sweep_spec (now : Int) (source : String)
    (olderThan : Int) (store : Store) :
    (∀ d : StoredDoc, sweepMatch now source olderThan d = true ↔
      (d.data.source = source ∧ d.isActive = true ∧ d.lastSeen < now - olderThan)) ∧
    (markListingsInactive now source olderThan store).1 =
      (store.filter (sweepMatch now source olderThan)).length ∧
    (markListingsInactive now source olderThan store).2.length = store.length ∧
    List.Forall₂ (fun d e =>
        (sweepMatch now source olderThan d = true → e = { d with isActive := false }) ∧
        (sweepMatch now source olderThan d = false → e = d))
      store (markListingsInactive now source olderThan store).2 := by
  refine ⟨?_, rfl, by simp [markListingsInactive], ?_⟩
  · intro d
    simp only [sweepMatch, Bool.and_eq_true, beq_iff_eq, decide_eq_true_eq]
    constructor
    · rintro ⟨⟨hs, hl⟩, ha⟩
      exact ⟨hs, ha, hl⟩
    · rintro ⟨hs, ha, hl⟩
      exact ⟨⟨hs, hl⟩, ha⟩
  · simp only [markListingsInactive]
    refine forall2_map_self _ _ store (fun a ha => ?_)
    constructor
    · intro hm
      simp [hm]
    · intro hm
      simp [hm]

/-- Witness for markListingsInactive_sweep_spec: the documented two-listing
scenario — lastSeen at now minus one day and now minus ten days, a seven-day
window (in milliseconds), sweep count 1, and only the old listing matched. -/
theorem markListingsInactive_sweep_spec_witness :
    sweepMatch 864000000 "kleinanzeigen" 604800000 dOld = true ∧
    sweepMatch 864000000 "kleinanzeigen" 604800000 dRecent = false ∧
    (markListingsInactive 864000000 "kleinanzeigen" 604800000 [dRecent, dOld]).1 = 1 := by
  have h := markListingsInactive_sweep_spec 864000000 "kleinanzeigen" 604800000
    [dRecent, dOld]
  refine ⟨(h.1 dOld).mpr ⟨rfl, rfl, by decide⟩, by decide, ?_⟩
  rw [h.2.1]
  decide

/-- Helper: membership in an ordered insertion. -/
theorem mem_insertByLastSeenDesc (x d : StoredDoc) (l : Store) :
    x ∈ insertByLastSeenDesc d l ↔ x = d ∨ x ∈ l := by
  induction l with
  | nil => simp [insertByLastSeenDesc]
  | cons h t ih =>
    simp only [insertByLastSeenDesc]
    by_cases hc : h.lastSeen < d.lastSeen
    · rw [if_pos hc]
      simp [List.mem_cons]
    · rw [if_neg hc]
      simp only [List.mem_cons, ih]
      tauto

/-- Helper: ordered insertion preserves the lastSeen-descending pairwise
order. -/
theorem pairwise_insertByLastSeenDesc (d : StoredDoc) (l : Store)
    (h : l.Pairwise (fun a b => b.lastSeen ≤ a.lastSeen)) :
    (insertByLastSeenDesc d l).Pairwise (fun a b => b.lastSeen ≤ a.lastSeen) := by
  induction l with
  | nil => simp [insertByLastSeenDesc]
  | cons hd t ih =>
    rw [List.pairwise_cons] at h
    simp only [insertByLastSeenDesc]
    by_cases hc : hd.lastSeen < d.lastSeen
    · rw [if_pos hc, List.pairwise_cons]
      constructor
      · intro y hy
        rcases List.mem_cons.mp hy with rfl | hyt
        · exact le_of_lt hc
        · exact le_trans (h.1 y hyt) (le_of_lt hc)
      · rw [List.pairwise_cons]
        exact h
    · rw [if_neg hc, List.pairwise_cons]
      constructor
      · intro y hy
        rcases (mem_insertByLastSeenDesc y d t).mp hy with rfl | hyt
        · exact le_of_not_lt hc
        · exact h.1 y hyt
      · exact ih h.2

/-- Helper: the insertion sort used by getListings is ordered by lastSeen
descending. -/
theorem pairwise_sortByLastSeenDesc (l : Store) :
    (sortByLastSeenDesc l).Pairwise (fun a b => b.lastSeen ≤ a.lastSeen) := by
  have key : ∀ acc : Store, acc.Pairwise (fun a b => b.lastSeen ≤ a.lastSeen) →
      (l.foldl (fun a d => insertByLastSeenDesc d a) acc).Pairwise
        (fun a b => b.lastSeen ≤ a.lastSeen) := by
    induction l with
    | nil => intro acc hacc; simpa using hacc
    | cons x t ih =>
      intro acc hacc
      exact ih _ (pairwise_insertByLastSeenDesc x acc hacc)
  simpa [sortByLastSeenDesc] using key [] (by simp)

/-- Helper: the insertion sort is a permutation-level no-op on membership. -/
theorem mem_sortByLastSeenDesc (x : StoredDoc) (l : Store) :
    x ∈ sortByLastSeenDesc l ↔ x ∈ l := by
  have key : ∀ acc : Store,
      (x ∈ l.foldl (fun a d => insertByLastSeenDesc d a) acc ↔ x ∈ acc ∨ x ∈ l) := by
    induction l with
    | nil => intro acc; simp
    | cons y t ih =>
      intro acc
      simp only [List.foldl_cons]
      rw [ih (insertByLastSeenDesc y acc), mem_insertByLastSeenDesc]
      simp only [List.mem_cons]
      tauto
  simpa [sortByLastSeenDesc] using key []

/-- Helper: everything getListings returns passed the filter stage. -/
theorem mem_getListings_filter (f : Filters) (store : Store) (d : StoredDoc)
    (hd : d ∈ getListings f store) : d ∈ store.filter (matchesFilters f) := by
  rcases hlim : f.limit with _ | n
  · have heq : getListings f store =
        sortByLastSeenDesc (store.filter (matchesFilters f)) := by
      simp [getListings, hlim]
    rw [heq] at hd
    exact (mem_sortByLastSeenDesc _ _).mp hd
  · by_cases hn : n ≠ 0
    · have heq : getListings f store =
          (sortByLastSeenDesc (store.filter (matchesFilters f))).take n := by
        simp [getListings, hlim, hn]
      rw [heq] at hd
      exact (mem_sortByLastSeenDesc _ _).mp (List.take_subset n _ hd)
    · have heq : getListings f store =
          sortByLastSeenDesc (store.filter (matchesFilters f)) := by
        simp [getListings, hlim, hn]
      rw [heq] at hd
      exact (mem_sortByLastSeenDesc _ _).mp hd

/-- C9 counterexample: getListings never reads the offset filter, so an
offset of 1 over a two-document store still returns both documents instead of
skipping the first — pagination by offset is not supported. -/
theorem getListings_offset_ignored_cex :
    getListings { offset := some 1 } [dRecent, dOld] =
      getListings {} [dRecent, dOld] ∧
    (getListings { offset := some 1 } [dRecent, dOld]).length = 2 :=
  ⟨by decide, by decide⟩

/-- C9 amended: getListings supports filtering by source, isActive and
min/max price and a result cap via limit, and returns results ordered by
lastSeen descending as the single sort order; the offset field is ignored, so
pagination is limited to `limit` alone. -/
theorem getListings_query_spec (f : Filters) (store : Store) :
    getListings f store = getListings { f with offset := none } store ∧
    (getListings f store).Pairwise (fun a b => b.lastSeen ≤ a.lastSeen) ∧
    (∀ d ∈ getListings f store, d ∈ store) ∧
    (∀ s, f.source = some s → s ≠ "" →
      ∀ d ∈ getListings f store, d.data.source = s) ∧
    (∀ b, f.isActive = some b → ∀ d ∈ getListings f store, d.isActive = b) ∧
    (∀ m, f.minPrice = some m → m ≠ 0 →
      ∀ d ∈ getListings f store, ∃ p, d.data.price = some p ∧ m ≤ p) ∧
    (∀ m, f.maxPrice = some m → m ≠ 0 →
      ∀ d ∈ getListings f store, ∃ p, d.data.price = some p ∧ p ≤ m) ∧
    (∀ n, f.limit = some n → n ≠ 0 → (getListings f store).length ≤ n) := by
  refine ⟨rfl, ?_, ?_, ?_, ?_, ?_, ?_, ?_⟩
  · have hp := pairwise_sortByLastSeenDesc (store.filter (matchesFilters f))
    rcases hlim : f.limit with _ | n
    · simpa [getListings, hlim] using hp
    · by_cases hn : n ≠ 0
      · have heq : getListings f store =
            (sortByLastSeenDesc (store.filter (matchesFilters f))).take n := by
          simp [getListings, hlim, hn]
        rw [heq]
        exact List.Pairwise.sublist (List.take_sublist n _) hp
      · simpa [getListings, hlim, hn] using hp
  · intro d hd
    exact (List.mem_filter.mp (mem_getListings_filter f store d hd)).1
  · intro s hs hs0 d hd
    have hm := (List.mem_filter.mp (mem_getListings_filter f store d hd)).2
    simp only [matchesFilters, hs, hs0, Bool.and_eq_true] at hm
    have := hm.1.1.1
    simp only [if_neg, beq_iff_eq] at this
    simpa [hs0] using this
  · intro b hb d hd
    have hm := (List.mem_filter.mp (mem_getListings_filter f store d hd)).2
    simp only [matchesFilters, hb, Bool.and_eq_true] at hm
    have := hm.1.1.2
    simpa [beq_iff_eq] using this
  · intro m hmn hm0 d hd
    have hm := (List.mem_filter.mp (mem_getListings_filter f store d hd)).2
    simp only [matchesFilters, hmn, Bool.and_eq_true] at hm
    have hcomp := hm.1.2
    rcases hp : d.data.price with _ | p
    · rw [hp] at hcomp
      simp [hm0] at hcomp
    · rw [hp] at hcomp
      simp only [hm0, if_pos, decide_eq_true_eq] at hcomp
      refine ⟨p, rfl, ?_⟩
      simpa [hm0] using hcomp
  · intro m hmn hm0 d hd
    have hm := (List.mem_filter.mp (mem_getListings_filter f store d hd)).2
    simp only [matchesFilters, hmn, Bool.and_eq_true] at hm
    have hcomp := hm.2
    rcases hp : d.data.price with _ | p
    · rw [hp] at hcomp
      simp [hm0] at hcomp
    · rw [hp] at hcomp
      refine ⟨p, rfl, ?_⟩
      simpa [hm0] using hcomp
  · intro n hn hn0
    have heq : getListings f store =
        (sortByLastSeenDesc (store.filter (matchesFilters f))).take n := by
      simp [getListings, hn, hn0]
    rw [heq]
    exact List.length_take_le n _

/-- Witness for getListings_query_spec at a concrete filter combining a
source filter with limit 1 over a two-document store. -/
theorem getListings_query_spec_witness :
    (getListings { source := some "kleinanzeigen", limit := some 1 }
      [dRecent, dOld]).length ≤ 1 ∧
    dRecent.data.source = "kleinanzeigen" := by
  have h := getListings_query_spec
    { source := some "kleinanzeigen", limit := some 1 } [dRecent, dOld]
  refine ⟨h.2.2.2.2.2.2.2 1 rfl (by decide), ?_⟩
  exact h.2.2.2.1 "kleinanzeigen" rfl (by decide) dRecent (by decide)

/-- C8: property-type classification is the case-insensitive keyword chain
room / house / commercial over the space-joined title+description, with
"apartment" (never "unknown") as the default. -/
theorem determinePropertyType_keywords (title description : String) :
    (roomKeywords (jsToLower (title ++ " " ++ description)) = true →
      determinePropertyType title description = "room") ∧
    (roomKeywords (jsToLower (title ++ " " ++ description)) = false →
      houseKeywords (jsToLower (title ++ " " ++ description)) = true →
      determinePropertyType title description = "house") ∧
    (roomKeywords (jsToLower (title ++ " " ++ description)) = false →
      houseKeywords (jsToLower (title ++ " " ++ description)) = false →
      commercialKeywords (jsToLower (title ++ " " ++ description)) = true →
      determinePropertyType title description = "commercial") ∧
    (roomKeywords (jsToLower (title ++ " " ++ description)) = false →
      houseKeywords (jsToLower (title ++ " " ++ description)) = false →
      commercialKeywords (jsToLower (title ++ " " ++ description)) = false →
      determinePropertyType title description = "apartment") ∧
    determinePropertyType title description ≠ "unknown" ∧
    determinePropertyType title description ∈
      (["room", "house", "commercial", "apartment"] : List String) := by
  refine ⟨?_, ?_, ?_, ?_, ?_, ?_⟩
  · intro h
    simp [determinePropertyType, h]
  · intro h1 h2
    simp [determinePropertyType, h1, h2]
  · intro h1 h2 h3
    simp [determinePropertyType, h1, h2, h3]
  · intro h1 h2 h3
    simp [determinePropertyType, h1, h2, h3]
  · simp only [determinePropertyType]
    split
    · simp
    · split
      · simp
      · split <;> simp
  · simp only [determinePropertyType]
    split
    · simp
    · split
      · simp
      · split <;> simp

/-- Witness for determinePropertyType_keywords on the three documented
examples. -/
theorem determinePropertyType_keywords_witness :
    determinePropertyType "WG-Zimmer in Mitte" "" = "room" ∧
    determinePropertyType "Einfamilienhaus am See" "" = "house" ∧
    determinePropertyType "Schöne Wohnung" "" = "apartment" :=
  ⟨(determinePropertyType_keywords "WG-Zimmer in Mitte" "").1 (by decide),
   (determinePropertyType_keywords "Einfamilienhaus am See" "").2.1 (by decide) (by decide),
   (determinePropertyType_keywords "Schöne Wohnung" "").2.2.2.1
     (by decide) (by decide) (by decide)⟩
example : normalizePrice (some (.vStr "650 €")) = some (mkRat 650 1) := by decide
example : normalizePrice (some (.vStr "0 €")) = none := by decide
example : normalizePrice (some (.vNum 0)) = none := by decide
example : normalizePrice (some (.vStr "")) = none := by decide
example : cleanString "  a \t b  " = "a b" := by decide
example : determinePropertyType "WG-Zimmer in Mitte" "" = "room" := by decide
example : determinePropertyType "Einfamilienhaus am See" "" = "house" := by decide
example : determinePropertyType "BÜRO zentral" "" = "commercial" := by decide
example : determinePropertyType "Schöne Wohnung" "" = "apartment" := by decide
example : extractSize "tolle wohnung 45,5 m² hell" = some (mkRat 91 2) := by decide
example : extractRooms "3 Zimmer Wohnung" = some (mkRat 3 1) := by decide
example : normalizeImages [.vStr "//a.jpg", .vNum 3, .vStr "", .vStr "http://b.de/x.png"] =
    ["https://a.jpg", "http://b.de/x.png"] := by decide
